import Mathlib

/-!
Verification of the Bokeh-style widget selection callback
(`src/widget_callback.js`).

The callback reads the multi-select control's active indices
(`cb_obj.active`), a list of group labels (`group_list`), and a shared
tabular data source with parallel columns `index` and `widget_group`.
It collects the labels of the active groups, then walks the row
positions of `index`, selecting each row whose `widget_group` entry is
one of the chosen labels; finally it overwrites
`source.selected.indices` and emits a change notification.
-/

namespace SelectionFilter

/-- The shared tabular data source: parallel columns `index` (row
identifiers) and `widget_group` (one label per row), plus the mutable
list of selected row positions. -/
structure DataSource where
  index : List Int
  widget_group : List String
  selected : List Nat
deriving DecidableEq, Repr

/-- Events emitted by the callback, in order: the assignment to
`source.selected.indices` and the `source.change.emit()` call. -/
inductive Event where
  | setSelected : List Nat → Event
  | changeEmit : Event
deriving DecidableEq, Repr

/-- First loop of the callback: for `i = 0 .. group_list.length - 1`,
push `group_list[i]` whenever `chosen_inds.includes(i)`. -/
def chosen_widget_groups (chosen_inds : List Int) (group_list : List String) :
    List String :=
  ((List.range group_list.length).filter
    (fun i => decide (Int.ofNat i ∈ chosen_inds))).filterMap group_list.get?

/-- The guard of the second loop: `chosen_widget_groups.includes(
source.data['widget_group'][i])`.  A read past the end of
`widget_group` yields JavaScript `undefined`, which is never equal to
any of the chosen string labels, so it is modelled as `none ↦ false`. -/
def row_matches (chosen_groups widget_group : List String) (i : Nat) : Bool :=
  match widget_group.get? i with
  | some g => chosen_groups.contains g
  | none => false

/-- Second loop of the callback: for `i = 0 .. source.data['index'].length
- 1`, push `i` whenever the row's `widget_group` entry is among the
chosen group labels. -/
def to_select_inds (chosen_groups widget_group : List String)
    (index_len : Nat) : List Nat :=
  (List.range index_len).filter (row_matches chosen_groups widget_group)

/-- The whole callback body: compute the chosen groups and the row
positions to select, overwrite `source.selected.indices`, and emit the
change notification.  Returns the updated data source together with the
trace of emitted events, in program order. -/
def widget_callback (active : List Int) (group_list : List String)
    (source : DataSource) : DataSource × List Event :=
  let chosen_groups := chosen_widget_groups active group_list
  let sel := to_select_inds chosen_groups source.widget_group source.index.length
  ({ source with selected := sel }, [Event.setSelected sel, Event.changeEmit])

/-- The state transformer of the callback (`apply` in the spec's
contract): the data source after one invocation. -/
def apply (active : List Int) (group_list : List String)
    (source : DataSource) : DataSource :=
  (widget_callback active group_list source).1

/-- The data source used by the spec's scenarios. -/
def demoSource : DataSource :=
  { index := [0, 1, 2, 3]
    widget_group := ["A", "B", "A", "C"]
    selected := [] }

/-- The selection written by the callback, spelled out. -/
theorem apply_selected (active : List Int) (group_list : List String)
    (ds : DataSource) :
    (apply active group_list ds).selected =
      to_select_inds (chosen_widget_groups active group_list)
        ds.widget_group ds.index.length := rfl

/-- Membership in the chosen group labels. -/
theorem mem_chosen_widget_groups {a : List Int} {gl : List String} {g : String} :
    g ∈ chosen_widget_groups a gl ↔
      ∃ i : Nat, i < gl.length ∧ Int.ofNat i ∈ a ∧ gl.get? i = some g := by
  simp only [chosen_widget_groups, List.mem_filterMap, List.mem_filter,
    List.mem_range, decide_eq_true_eq]
  constructor
  · rintro ⟨i, ⟨hi, hmem⟩, hget⟩
    exact ⟨i, hi, hmem, hget⟩
  · rintro ⟨i, hi, hmem, hget⟩
    exact ⟨i, ⟨hi, hmem⟩, hget⟩

/-- Membership in the selected row positions. -/
theorem mem_to_select_inds {cg wg : List String} {n r : Nat} :
    r ∈ to_select_inds cg wg n ↔ r < n ∧ row_matches cg wg r = true := by
  rw [to_select_inds, List.mem_filter, List.mem_range]

/-- A row matches exactly when its `widget_group` entry exists and is a
chosen label. -/
theorem row_matches_iff {cg wg : List String} {r : Nat} :
    row_matches cg wg r = true ↔ ∃ g, wg.get? r = some g ∧ g ∈ cg := by
  unfold row_matches
  cases h : wg.get? r with
  | none => simp
  | some g => simp

/-- The callback's output depends on `active` only through membership of
the probed positions `0 .. group_list.length - 1`. -/
theorem apply_congr {a₁ a₂ : List Int} (gl : List String) (ds : DataSource)
    (h : ∀ i : Nat, i < gl.length → (Int.ofNat i ∈ a₁ ↔ Int.ofNat i ∈ a₂)) :
    apply a₁ gl ds = apply a₂ gl ds := by
  have hc : chosen_widget_groups a₁ gl = chosen_widget_groups a₂ gl := by
    unfold chosen_widget_groups
    congr 1
    refine List.filter_congr ?_
    intro x hx
    exact decide_eq_decide.mpr (h x (List.mem_range.mp hx))
  show ({ ds with selected := (to_select_inds (chosen_widget_groups a₁ gl)
    ds.widget_group ds.index.length) } : DataSource) = _
  rw [hc]
  rfl

/-- With no chosen labels no row matches. -/
theorem row_matches_nil {wg : List String} {i : Nat} :
    row_matches [] wg i = false := by
  unfold row_matches
  cases wg.get? i <;> rfl

/-- Row matching only looks at the first `n` entries of `widget_group`. -/
theorem row_matches_take {cg wg : List String} {n i : Nat} (hi : i < n) :
    row_matches cg (wg.take n) i = row_matches cg wg i := by
  unfold row_matches
  rw [List.get?_take hi]

/-- C1: for every `activeIndices`, `groupList`, and `dataSource` with
`index` and `widget_group` of equal length, after `apply` a row position
`r` is selected iff `dataSource.widget_group[r]` equals `groupList[i]`
for some `i` in `activeIndices` with `0 ≤ i < len(groupList)`. -/
theorem apply_selected_iff (active : List Int) (group_list : List String)
    (ds : DataSource) (hlen : ds.index.length = ds.widget_group.length)
    (r : Nat) (hr : r < ds.index.length) :
    r ∈ (apply active group_list ds).selected ↔
      ∃ i : Nat, i < group_list.length ∧ Int.ofNat i ∈ active ∧
        ds.widget_group.get? r = group_list.get? i := by
  have hr' : r < ds.widget_group.length := hlen ▸ hr
  rw [apply_selected, mem_to_select_inds, row_matches_iff]
  constructor
  · rintro ⟨-, g, hg, hgin⟩
    obtain ⟨i, hi, hia, hgi⟩ := mem_chosen_widget_groups.mp hgin
    exact ⟨i, hi, hia, by rw [hg, hgi]⟩
  · rintro ⟨i, hi, hia, heq⟩
    refine ⟨hr, ds.widget_group.get ⟨r, hr'⟩, List.get?_eq_get hr', ?_⟩
    refine mem_chosen_widget_groups.mpr ⟨i, hi, hia, ?_⟩
    rw [← heq, List.get?_eq_get hr']

/-- Witness for C1 at a concrete input. -/
theorem apply_selected_iff_witness :
    0 ∈ (apply [0] ["A"] (DataSource.mk [0] ["A"] [])).selected :=
  (apply_selected_iff [0] ["A"] (DataSource.mk [0] ["A"] []) rfl 0
    (by decide)).mpr ⟨0, by decide, by decide, rfl⟩

/-- C2: the sequence written to `dataSource.selected` is strictly
ascending (hence duplicate-free), and it fully replaces the previous
selection: the result does not depend on the prior `selected`. -/
theorem apply_selected_sorted (active : List Int) (group_list : List String)
    (ds : DataSource) :
    ((apply active group_list ds).selected).Pairwise (· < ·) ∧
      ∀ s : List Nat,
        (apply active group_list { ds with selected := s }).selected =
          (apply active group_list ds).selected := by
  refine ⟨?_, fun s => rfl⟩
  rw [apply_selected, to_select_inds]
  exact (List.pairwise_lt_range _).filter _

/-- C3: the selection depends only on the set of values in
`activeIndices`: permutations and duplicate entries do not change
the result. -/
theorem apply_perm_dedup_invariant :
    (∀ (a₁ a₂ : List Int) (gl : List String) (ds : DataSource),
        a₁.Perm a₂ → apply a₁ gl ds = apply a₂ gl ds) ∧
      ∀ (a : List Int) (gl : List String) (ds : DataSource),
        apply a gl ds = apply a.dedup gl ds := by
  constructor
  · intro a₁ a₂ gl ds hp
    exact apply_congr gl ds (fun i _ => hp.mem_iff)
  · intro a gl ds
    exact apply_congr gl ds (fun i _ => (List.mem_dedup).symm)

/-- Witness for C3 at a concrete input. -/
theorem apply_perm_dedup_invariant_witness :
    apply [1, 0] ["A", "B"] demoSource = apply [0, 1] ["A", "B"] demoSource :=
  apply_perm_dedup_invariant.1 [1, 0] [0, 1] ["A", "B"] demoSource
    (List.Perm.swap 0 1 [])

/-- C4: values in `activeIndices` at or beyond `len(groupList)`
contribute no matches: the result equals the result for `activeIndices`
restricted to positions below `len(groupList)`. -/
theorem apply_out_of_range (active : List Int) (group_list : List String)
    (ds : DataSource)
    (hx : ∃ x ∈ active, (group_list.length : Int) ≤ x) :
    apply active group_list ds =
      apply (active.filter (fun x => decide (x < (group_list.length : Int))))
        group_list ds := by
  refine apply_congr group_list ds ?_
  intro i hi
  constructor
  · intro hmem
    refine List.mem_filter.mpr ⟨hmem, decide_eq_true ?_⟩
    exact Int.ofNat_lt.mpr hi
  · intro hmem
    exact (List.mem_filter.mp hmem).1

/-- Witness for C4 at a concrete input. -/
theorem apply_out_of_range_witness :
    apply [5] ["A", "B", "C"] demoSource =
      apply (([5] : List Int).filter
          (fun x => decide (x < ((["A", "B", "C"] : List String).length : Int))))
        ["A", "B", "C"] demoSource :=
  apply_out_of_range [5] ["A", "B", "C"] demoSource ⟨5, by decide, by decide⟩

/-- C5: with empty `activeIndices` the resulting selection is empty and
the change notification still fires. -/
theorem apply_empty_active (group_list : List String) (ds : DataSource) :
    (apply [] group_list ds).selected = [] ∧
      Event.changeEmit ∈ (widget_callback [] group_list ds).2 := by
  constructor
  · rw [apply_selected]
    have h1 : chosen_widget_groups [] group_list = [] := by
      unfold chosen_widget_groups
      simp
    rw [h1, to_select_inds]
    refine List.filter_eq_nil_iff.mpr ?_
    intro a _
    rw [row_matches_nil]
    exact Bool.false_ne_true
  · simp [widget_callback]

/-- C6: on every invocation exactly one change notification is emitted,
after `dataSource.selected` has been replaced, unconditionally. -/
theorem widget_callback_emits_once (active : List Int)
    (group_list : List String) (ds : DataSource) :
    (widget_callback active group_list ds).2 =
        [Event.setSelected ((widget_callback active group_list ds).1.selected),
          Event.changeEmit] ∧
      ((widget_callback active group_list ds).2.count Event.changeEmit) = 1 :=
  ⟨rfl, rfl⟩

/-- C7: `apply` mutates only `dataSource.selected`; the `index` and
`widget_group` columns are unchanged, and the result is the input data
source with only `selected` replaced. -/
theorem apply_frame (active : List Int) (group_list : List String)
    (ds : DataSource) :
    apply active group_list ds =
        { ds with selected := (apply active group_list ds).selected } ∧
      (apply active group_list ds).index = ds.index ∧
      (apply active group_list ds).widget_group = ds.widget_group :=
  ⟨rfl, rfl, rfl⟩

/-- C8: the spec's concrete scenarios on
`groupList = ["A","B","C"]`, `index = [0,1,2,3]`,
`widget_group = ["A","B","A","C"]`, for any prior selection. -/
theorem apply_scenarios :
    ∀ s : List Nat,
      (apply [0] ["A", "B", "C"] (DataSource.mk [0, 1, 2, 3]
          ["A", "B", "A", "C"] s)).selected = [0, 2] ∧
        (apply [0, 2] ["A", "B", "C"] (DataSource.mk [0, 1, 2, 3]
          ["A", "B", "A", "C"] s)).selected = [0, 2, 3] ∧
        (apply [1, 1] ["A", "B", "C"] (DataSource.mk [0, 1, 2, 3]
          ["A", "B", "A", "C"] s)).selected = [1] ∧
        (apply [5] ["A", "B", "C"] (DataSource.mk [0, 1, 2, 3]
          ["A", "B", "A", "C"] s)).selected = [] :=
  fun _ => ⟨rfl, rfl, rfl, rfl⟩

/-- C9: when `widget_group` is shorter than `index`, `apply` still
terminates with a value, every selected position is below both column
lengths (the out-of-bounds lookup matches no label), and the row scan
never examines `widget_group` beyond the length of `index`. -/
theorem apply_short_widget_group (active : List Int)
    (group_list : List String) (ds : DataSource)
    (h : ds.widget_group.length < ds.index.length) :
    (∀ r ∈ (apply active group_list ds).selected,
        r < ds.widget_group.length) ∧
      (∀ r ∈ (apply active group_list ds).selected, r < ds.index.length) ∧
      ∀ (cg wg : List String) (n : Nat),
        to_select_inds cg wg n = to_select_inds cg (wg.take n) n := by
  refine ⟨?_, ?_, ?_⟩
  · intro r hr
    rw [apply_selected, mem_to_select_inds, row_matches_iff] at hr
    obtain ⟨-, g, hg, -⟩ := hr
    exact List.get?_eq_some.mp hg |>.fst
  · intro r hr
    rw [apply_selected, mem_to_select_inds] at hr
    exact hr.1
  · intro cg wg n
    unfold to_select_inds
    refine (List.filter_congr ?_).symm
    intro i hi
    exact row_matches_take (List.mem_range.mp hi)

/-- Witness for C9 at a concrete input. -/
theorem apply_short_widget_group_witness :
    0 < (DataSource.mk [10, 20] ["A"] []).widget_group.length :=
  (apply_short_widget_group [0] ["A"] (DataSource.mk [10, 20] ["A"] [])
    (by decide)).1 0 (by decide)

/-- C10: negative values in `activeIndices` are silently ignored: the
result equals the result for `activeIndices` with all negative entries
removed. -/
theorem apply_negative_ignored (active : List Int) (group_list : List String)
    (ds : DataSource) :
    apply active group_list ds =
      apply (active.filter (fun x => decide (0 ≤ x))) group_list ds := by
  refine apply_congr group_list ds ?_
  intro i hi
  constructor
  · intro hmem
    exact List.mem_filter.mpr ⟨hmem, decide_eq_true (Int.ofNat_nonneg i)⟩
  · intro hmem
    exact (List.mem_filter.mp hmem).1

end SelectionFilter
